import Mathlib

/-!
Verification of the democrasite topic access & voting engine.

The browser client (`src/frontend/js/topics.js`, `api.js`) is embedded
directly; the server-side engine (Topic Store, Access Controller, Vote
Ledger) is not part of the checked sources, so its operations are
modelled from the specification and marked as such in their doc
comments.
-/

namespace Democrasite

/-- Error taxonomy of the engine (spec section 7). -/
inductive Err where
  | validationError
  | forbidden
  | notFound
  | invalidChoice
  | tooManyChoices
  | duplicateAnswer
  deriving DecidableEq, Repr

/-- Topic record (spec section 3); fields as carried by the API payloads
used in `topics.js`. -/
structure Topic where
  share_code : String
  title : String
  description : Option String
  answers : List String
  is_public : Bool
  is_editable : Bool
  allow_multi_select : Bool
  created_by : String
  tags : List String
  deriving DecidableEq, Repr

/-- Current vote state of one user on one topic (spec section 3). -/
structure Ballot where
  user : String
  topic : String
  choices : List String
  deriving DecidableEq, Repr

/-- Durable state of the engine: topics, access grants and ballots, each
an independent relation (spec section 6). A grant is a
(username, share_code) pair. -/
structure EngineState where
  topics : List Topic
  grants : List (String × String)
  ballots : List Ballot
  deriving DecidableEq, Repr

/-- Look up a topic by its share code. -/
def findTopic (st : EngineState) (code : String) : Option Topic :=
  st.topics.find? (fun t => t.share_code == code)

/-- Ballots recorded for a given (user, topic share code) pair. -/
def ballotsFor (st : EngineState) (user code : String) : List Ballot :=
  st.ballots.filter (fun b => b.user == user && b.topic == code)

/-- Access check (spec section 4.2): public topics are open, the creator
always has access, otherwise a grant is required. -/
def hasAccess (st : EngineState) (user : String) (t : Topic) : Bool :=
  t.is_public || user == t.created_by || st.grants.contains (user, t.share_code)

/-- Modelled from the spec: the Vote Ledger operation `SubmitVote` (section 4.3)
is not under `src/`; it validates the choice list against the topic
shape and the access of the caller, then atomically replaces any prior
ballot for (voter, topic) — delete-old-then-insert-new upsert
(section 5). -/
def submitVote (st : EngineState) (voter code : String) (choices : List String) :
    Except Err Ballot × EngineState :=
  match findTopic st code with
  | none => (.error .notFound, st)
  | some t =>
    if !hasAccess st voter t then (.error .forbidden, st)
    else if choices.isEmpty then (.error .validationError, st)
    else if !t.allow_multi_select && choices.length > 1 then (.error .tooManyChoices, st)
    else if !choices.all (fun c => t.answers.contains c) then (.error .invalidChoice, st)
    else if !choices.Nodup then (.error .validationError, st)
    else
      let b : Ballot := ⟨voter, code, choices⟩
      (.ok b,
        { st with
          ballots := b :: st.ballots.filter (fun x => !(x.user == voter && x.topic == code)) })

/-- Whether a `submitVote` call with these arguments is accepted
(depends only on the topics and grants of the state, never on the
ballots). -/
def voteAccepted (st : EngineState) (voter code : String) (choices : List String) : Bool :=
  match findTopic st code with
  | none => false
  | some t =>
    hasAccess st voter t && !choices.isEmpty &&
      !(!t.allow_multi_select && choices.length > 1) &&
      choices.all (fun c => t.answers.contains c) && choices.Nodup

/-- Run a sequence of `SubmitVote` calls by one voter on one topic. -/
def runVotes (voter code : String) (st : EngineState) (ops : List (List String)) : EngineState :=
  ops.foldl (fun s cs => (submitVote s voter code cs).2) st

/-- The choice list of the most recent accepted submission in a
sequence of `SubmitVote` calls, judged against the initial state
(whose topics and grants the calls leave untouched). -/
def lastAccepted (st : EngineState) (voter code : String) (ops : List (List String)) :
    Option (List String) :=
  ops.reverse.find? (voteAccepted st voter code)

lemma submitVote_topics (st : EngineState) (v c : String) (cs : List String) :
    ((submitVote st v c cs).2).topics = st.topics := by
  unfold submitVote
  cases hf : findTopic st c with
  | none => rfl
  | some t =>
    dsimp only
    repeat' split
    all_goals rfl

lemma submitVote_grants (st : EngineState) (v c : String) (cs : List String) :
    ((submitVote st v c cs).2).grants = st.grants := by
  unfold submitVote
  cases hf : findTopic st c with
  | none => rfl
  | some t =>
    dsimp only
    repeat' split
    all_goals rfl

lemma voteAccepted_congr (st st' : EngineState) (v c : String)
    (ht : st'.topics = st.topics) (hg : st'.grants = st.grants) :
    voteAccepted st' v c = voteAccepted st v c := by
  funext cs
  simp only [voteAccepted, findTopic, hasAccess, ht, hg]

lemma submitVote_ballots_accepted (st : EngineState) (v c : String) (cs : List String)
    (h : voteAccepted st v c cs = true) :
    ballotsFor ((submitVote st v c cs).2) v c = [⟨v, c, cs⟩] := by
  unfold submitVote
  unfold voteAccepted at h
  cases hf : findTopic st c with
  | none => rw [hf] at h; exact absurd h (by simp)
  | some t =>
    rw [hf] at h
    dsimp only at h
    simp only [Bool.and_eq_true] at h
    obtain ⟨⟨⟨⟨hacc, hne⟩, hcard⟩, hmem⟩, hnd⟩ := h
    have hne2 : cs.isEmpty = false := by simpa using hne
    have hcard2 : (!t.allow_multi_select && decide (cs.length > 1)) = false := by
      revert hcard
      cases !t.allow_multi_select && decide (cs.length > 1) <;> simp
    dsimp only
    rw [if_neg (by simp [hacc]), if_neg (by simp [hne2]),
      if_neg (by simp [hcard2]), if_neg (by rw [hmem]; decide),
      if_neg (by simp [hnd])]
    simp only [ballotsFor, List.filter_cons]
    rw [if_pos (by simp)]
    rw [List.filter_filter]
    have hfalse : ∀ b : Ballot,
        ((b.user == v && b.topic == c) && !(b.user == v && b.topic == c)) = false := by
      intro b; cases b.user == v && b.topic == c <;> rfl
    simp only [hfalse, List.filter_false]

lemma submitVote_ballots_rejected (st : EngineState) (v c : String) (cs : List String)
    (h : voteAccepted st v c cs = false) :
    ((submitVote st v c cs).2) = st := by
  unfold submitVote
  unfold voteAccepted at h
  cases hf : findTopic st c with
  | none => rfl
  | some t =>
    rw [hf] at h
    dsimp only at h
    dsimp only
    by_cases hacc : hasAccess st v t
    · rw [if_neg (by simp [hacc])]
      by_cases hne : cs.isEmpty
      · rw [if_pos hne]
      · rw [if_neg hne]
        by_cases hcard : (!t.allow_multi_select && decide (cs.length > 1)) = true
        · rw [if_pos hcard]
        · rw [if_neg hcard]
          by_cases hmem : cs.all (fun x => t.answers.contains x)
          · rw [if_neg (by simp only [Bool.not_eq_true]; simpa using hmem)]
            by_cases hnd : cs.Nodup
            · exfalso
              simp [hacc, hnd, List.all_eq_true] at h
              have hne3 : ¬cs = [] := by
                intro hcs; exact hne (by simp [hcs])
              have hcard3 : t.allow_multi_select = true ∨ cs.length ≤ 1 := by
                by_cases hm : t.allow_multi_select
                · exact Or.inl hm
                · right
                  by_contra hlen
                  exact hcard (by simp [hm]; omega)
              obtain ⟨x, hx, hx2⟩ := h hne3 hcard3
              have hxa := (List.all_eq_true).mp hmem x hx
              exact hx2 (by simpa using hxa)
            · rw [if_pos (by simpa using hnd)]
          · rw [if_pos (by simpa using hmem)]
    · rw [if_pos (by simpa using hacc)]

lemma runVotes_append (v c : String) (st : EngineState) (ops : List (List String))
    (cs : List String) :
    runVotes v c st (ops ++ [cs]) = (submitVote (runVotes v c st ops) v c cs).2 := by
  simp [runVotes, List.foldl_append]

lemma lastAccepted_append (st : EngineState) (v c : String) (ops : List (List String))
    (cs : List String) :
    lastAccepted st v c (ops ++ [cs]) =
      if voteAccepted st v c cs then some cs else lastAccepted st v c ops := by
  simp only [lastAccepted, List.reverse_append, List.reverse_cons, List.reverse_nil,
    List.nil_append, List.cons_append, List.find?]
  cases voteAccepted st v c cs <;> simp

/-- Core invariant for sequences of `SubmitVote` calls: the topics and
grants are untouched, and the (voter, topic) ballot list is the
singleton holding the most recent accepted submission (unchanged when
every submission was rejected). -/
lemma runVotes_state (st : EngineState) (v c : String) (ops : List (List String)) :
    (runVotes v c st ops).topics = st.topics ∧
    (runVotes v c st ops).grants = st.grants ∧
    ballotsFor (runVotes v c st ops) v c =
      (match lastAccepted st v c ops with
       | some cs => [⟨v, c, cs⟩]
       | none => ballotsFor st v c) := by
  induction ops using List.reverseRecOn with
  | nil => simp [runVotes, lastAccepted]
  | append_singleton ops cs ih =>
    obtain ⟨iht, ihg, ihb⟩ := ih
    rw [runVotes_append, lastAccepted_append]
    have hacc : voteAccepted (runVotes v c st ops) v c = voteAccepted st v c :=
      voteAccepted_congr st (runVotes v c st ops) v c iht ihg
    refine ⟨?_, ?_, ?_⟩
    · rw [submitVote_topics, iht]
    · rw [submitVote_grants, ihg]
    · cases h : voteAccepted st v c cs with
      | true =>
        rw [if_pos rfl]
        exact submitVote_ballots_accepted _ _ _ _ (by rw [hacc]; exact h)
      | false =>
        rw [if_neg (by simp)]
        rw [submitVote_ballots_rejected _ _ _ _ (by rw [hacc]; exact h)]
        exact ihb

/-- Claim C1: after any sequence of `SubmitVote` calls by one user on
one topic, exactly one ballot exists for the (user, topic) pair and it
equals the choice list of the most recent accepted (valid) submission:
resubmitting replaces the prior ballot rather than adding a second live
ballot. -/
theorem submitVote_upsert (st : EngineState) (voter code : String)
    (ops : List (List String)) (cs : List String)
    (h : lastAccepted st voter code ops = some cs) :
    ballotsFor (runVotes voter code st ops) voter code = [⟨voter, code, cs⟩] := by
  have := (runVotes_state st voter code ops).2.2
  rw [h] at this
  exact this

/-- A concrete public topic used to instantiate the theorems. -/
def topicEx : Topic :=
  { share_code := "CODE1AAA", title := "Best?", description := none,
    answers := ["A", "B"], is_public := true, is_editable := false,
    allow_multi_select := false, created_by := "alice", tags := [] }

/-- A concrete engine state holding `topicEx` and nothing else. -/
def stateEx : EngineState := { topics := [topicEx], grants := [], ballots := [] }

/-- Witness for claim C1: voter `bob` submits `["A"]` then `["B"]` on the
concrete topic; exactly one ballot remains and it carries `["B"]`. -/
theorem submitVote_upsert_witness :
    lastAccepted stateEx "bob" "CODE1AAA" [["A"], ["B"]] = some ["B"] ∧
    ballotsFor (runVotes "bob" "CODE1AAA" stateEx [["A"], ["B"]]) "bob" "CODE1AAA" =
      [⟨"bob", "CODE1AAA", ["B"]⟩] :=
  ⟨by decide, submitVote_upsert stateEx "bob" "CODE1AAA" [["A"], ["B"]] ["B"] (by decide)⟩

/-- Modelled from the spec: the Access Controller operation `Resolve`
(section 4.2) is not under `src/`; the client reaches it through
`API.joinByShareCode` / `API.getTopic`. An unknown reference is
`NotFound`; a public topic or the creator resolves without a grant; a
non-creator on a private topic resolves successfully, creating an
Access Grant on first visit. -/
def resolve (st : EngineState) (user code : String) : Except Err Topic × EngineState :=
  match findTopic st code with
  | none => (.error .notFound, st)
  | some t =>
    if t.is_public then (.ok t, st)
    else if user == t.created_by then (.ok t, st)
    else if st.grants.contains (user, code) then (.ok t, st)
    else (.ok t, { st with grants := (user, code) :: st.grants })

/-- Number of Access Grant rows recorded for a (user, share code) pair. -/
def countGrants (st : EngineState) (user code : String) : Nat :=
  st.grants.count (user, code)

lemma resolve_topics (st : EngineState) (user code : String) :
    ((resolve st user code).2).topics = st.topics := by
  unfold resolve
  cases hf : findTopic st code with
  | none => rfl
  | some t =>
    dsimp only
    repeat' split
    all_goals rfl

/-- Claim C3: `Resolve` on a correct share code never yields an
access-denied outcome: when the reference matches no topic it fails
with `NotFound`, and when the topic exists it succeeds for every user,
creating a grant for a non-creator on a private topic. -/
theorem resolve_never_forbidden (st : EngineState) (user code : String) :
    (resolve st user code).1 ≠ Except.error Err.forbidden ∧
    (findTopic st code = none →
      (resolve st user code).1 = Except.error Err.notFound) ∧
    (∀ t, findTopic st code = some t →
      (resolve st user code).1 = Except.ok t ∧
      (t.is_public = false → (user == t.created_by) = false →
        (user, code) ∈ ((resolve st user code).2).grants)) := by
  unfold resolve
  cases hf : findTopic st code with
  | none => exact ⟨by simp, fun _ => rfl, fun t ht => by simp at ht⟩
  | some t =>
    refine ⟨?_, by simp, ?_⟩
    · dsimp only
      repeat' split
      all_goals simp
    · intro t' ht'
      obtain rfl : t = t' := by simpa using ht'
      dsimp only
      by_cases hpub : t.is_public
      · simp [hpub]
      · rw [if_neg (by simpa using hpub)]
        by_cases hcr : user == t.created_by
        · simp [hcr]
        · rw [if_neg (by simpa using hcr)]
          split
          · next hg => exact ⟨rfl, fun _ _ => by simpa using hg⟩
          · exact ⟨rfl, fun _ _ => by simp⟩

/-- Claim C6: grant creation in `Resolve` is idempotent — resolving the
same private topic twice as the same non-creator leaves exactly one
Access Grant for the (user, topic) pair. -/
theorem resolve_idempotent_grants (st : EngineState) (user code : String) (t : Topic)
    (hf : findTopic st code = some t) (hpriv : t.is_public = false)
    (hnc : (user == t.created_by) = false) (hle : countGrants st user code ≤ 1) :
    countGrants ((resolve ((resolve st user code).2) user code).2) user code = 1 := by
  have step : ∀ s : EngineState, findTopic s code = some t → countGrants s user code ≤ 1 →
      countGrants ((resolve s user code).2) user code = 1 ∧
      ((resolve s user code).2).grants.contains (user, code) = true := by
    intro s hfs hles
    unfold resolve
    rw [hfs]
    dsimp only
    rw [if_neg (by simp [hpriv]), if_neg (by simp [hnc])]
    by_cases hg : s.grants.contains (user, code)
    · rw [if_pos hg]
      have h1 : 1 ≤ countGrants s user code := by
        rw [countGrants, List.one_le_count_iff]
        simpa using hg
      exact ⟨le_antisymm hles h1, hg⟩
    · rw [if_neg hg]
      constructor
      · show ((user, code) :: s.grants).count (user, code) = 1
        rw [List.count_cons_self]
        have h0 : s.grants.count (user, code) = 0 := by
          rw [List.count_eq_zero]
          simpa using hg
        rw [h0]
      · simp
  have h1 := step st hf hle
  have hf1 : findTopic ((resolve st user code).2) code = some t := by
    rw [findTopic, resolve_topics]
    exact hf
  have h2 := step ((resolve st user code).2) hf1 (le_of_eq h1.1)
  exact h2.1

/-- Modelled from the spec: the Access Controller operation `RevokeAccess`
(section 4.2) is not under `src/`; the client reaches it through
`API.removeTopicUser` from `TopicsManager.leaveTopic`. The creator may
revoke anyone; a user may revoke themselves; any other combination is
`Forbidden`. On success the Access Grant and Ballot of the target on the
topic are both deleted. -/
def revokeAccess (st : EngineState) (code requester targetUsername : String) :
    Except Err Unit × EngineState :=
  match findTopic st code with
  | none => (.error .notFound, st)
  | some t =>
    if requester == t.created_by || requester == targetUsername then
      (.ok (),
        { st with
          grants := st.grants.filter (fun g => !(g == (targetUsername, code))),
          ballots :=
            st.ballots.filter (fun b => !(b.user == targetUsername && b.topic == code)) })
    else (.error .forbidden, st)

/-- Claim C5: `RevokeAccess` succeeds exactly when the requester is the
creator of the topic or is the target, fails with `Forbidden` for every
other combination, and on success deletes both the Access Grant and
the Ballot of the target on the topic. -/
theorem revokeAccess_auth (st : EngineState) (code requester target : String) (t : Topic)
    (hf : findTopic st code = some t) :
    (((revokeAccess st code requester target).1 = Except.ok ()) ↔
      (requester = t.created_by ∨ requester = target)) ∧
    (¬(requester = t.created_by ∨ requester = target) →
      (revokeAccess st code requester target).1 = Except.error Err.forbidden) ∧
    ((requester = t.created_by ∨ requester = target) →
      (target, code) ∉ ((revokeAccess st code requester target).2).grants ∧
      ballotsFor ((revokeAccess st code requester target).2) target code = []) := by
  unfold revokeAccess
  rw [hf]
  dsimp only
  by_cases hauth : (requester == t.created_by || requester == target) = true
  · rw [if_pos hauth]
    have hprop : requester = t.created_by ∨ requester = target := by
      simpa using hauth
    refine ⟨by simp [hprop], fun hc => absurd hprop hc, fun _ => ⟨?_, ?_⟩⟩
    · intro hmem
      have := (List.mem_filter.mp hmem).2
      simp at this
    · show List.filter _ (List.filter _ st.ballots) = []
      rw [List.filter_filter]
      have hfalse : ∀ b : Ballot,
          ((b.user == target && b.topic == code) &&
            !(b.user == target && b.topic == code)) = false := by
        intro b; cases b.user == target && b.topic == code <;> rfl
      simp only [hfalse, List.filter_false]
  · rw [if_neg hauth]
    have hprop : ¬(requester = t.created_by ∨ requester = target) := by
      simpa using hauth
    exact ⟨by simp [hprop], fun _ => rfl, fun hc => absurd hc hprop⟩

/-- A concrete private topic used to instantiate the theorems. -/
def topicPriv : Topic :=
  { share_code := "PRIV0001", title := "Secret", description := none,
    answers := ["X", "Y"], is_public := false, is_editable := false,
    allow_multi_select := false, created_by := "alice", tags := [] }

/-- A concrete engine state holding only `topicPriv`, with no grants. -/
def statePriv : EngineState := { topics := [topicPriv], grants := [], ballots := [] }

/-- A concrete engine state where `bob` holds a grant and a ballot on
`topicPriv`. -/
def stateGrant : EngineState :=
  { topics := [topicPriv], grants := [("bob", "PRIV0001")],
    ballots := [⟨"bob", "PRIV0001", ["X"]⟩] }

/-- Witness for claim C3: `bob` (non-creator, no grant) resolves the
private topic by its share code; the call succeeds and creates a
grant. -/
theorem resolve_never_forbidden_witness :
    (resolve statePriv "bob" "PRIV0001").1 = Except.ok topicPriv ∧
    ("bob", "PRIV0001") ∈ ((resolve statePriv "bob" "PRIV0001").2).grants := by
  have h := (resolve_never_forbidden statePriv "bob" "PRIV0001").2.2 topicPriv (by decide)
  exact ⟨h.1, h.2 (by decide) (by decide)⟩

/-- Witness for claim C6: `bob` resolves the private topic twice from a
grantless state; exactly one grant results. -/
theorem resolve_idempotent_grants_witness :
    countGrants ((resolve ((resolve statePriv "bob" "PRIV0001").2) "bob" "PRIV0001").2)
      "bob" "PRIV0001" = 1 :=
  resolve_idempotent_grants statePriv "bob" "PRIV0001" topicPriv (by decide) (by decide)
    (by decide) (by decide)

/-- Witness for claim C5: `bob` removes himself from the private topic;
the call succeeds and both his grant and his ballot are gone. -/
theorem revokeAccess_auth_witness :
    (revokeAccess stateGrant "PRIV0001" "bob" "bob").1 = Except.ok () ∧
    ("bob", "PRIV0001") ∉ ((revokeAccess stateGrant "PRIV0001" "bob" "bob").2).grants ∧
    ballotsFor ((revokeAccess stateGrant "PRIV0001" "bob" "bob").2) "bob" "PRIV0001" = [] := by
  have h := revokeAccess_auth stateGrant "PRIV0001" "bob" "bob" topicPriv (by decide)
  exact ⟨h.1.mpr (Or.inr rfl), (h.2.2 (Or.inr rfl)).1, (h.2.2 (Or.inr rfl)).2⟩

/-- Replace the topic stored under a share code (identity on every
other topic). -/
def setTopic (topics : List Topic) (code : String) (t' : Topic) : List Topic :=
  topics.map (fun x => if x.share_code == code then t' else x)

/-- Modelled from the spec: the Topic Store operation `AppendAnswer`
(section 4.1) is not under `src/`; the client reaches it through
`API.addOptionToTopic` from `TopicsManager.addOption`. It fails with
`Forbidden` when the topic is not editable and with `DuplicateAnswer`
when the new answer is already present (case-sensitive); otherwise it
appends the answer. -/
def appendAnswer (st : EngineState) (code requester newAnswer : String) :
    Except Err Topic × EngineState :=
  match findTopic st code with
  | none => (.error .notFound, st)
  | some t =>
    if !t.is_editable then (.error .forbidden, st)
    else if t.answers.contains newAnswer then (.error .duplicateAnswer, st)
    else
      let t2 := { t with answers := t.answers ++ [newAnswer] }
      (.ok t2, { st with topics := setTopic st.topics code t2 })

/-- The answer list currently stored for a share code (empty when the
topic does not exist). -/
def answersOf (st : EngineState) (code : String) : List String :=
  match findTopic st code with
  | none => []
  | some t => t.answers

/-- Run a sequence of `AppendAnswer` calls ((requester, newAnswer)
pairs) against one topic. -/
def runAppends (code : String) (st : EngineState) (ops : List (String × String)) :
    EngineState :=
  ops.foldl (fun s op => (appendAnswer s code op.1 op.2).2) st

lemma find?_setTopic (l : List Topic) (code : String) (t t2 : Topic)
    (hf : l.find? (fun x => x.share_code == code) = some t)
    (h : (t2.share_code == code) = true) :
    (setTopic l code t2).find? (fun x => x.share_code == code) = some t2 := by
  induction l with
  | nil => simp [List.find?] at hf
  | cons x xs ih =>
    show ((if x.share_code == code then t2 else x) :: setTopic xs code t2).find? _ = some t2
    by_cases hx : (x.share_code == code) = true
    · rw [if_pos hx]
      exact List.find?_cons_of_pos _ h
    · rw [if_neg hx]
      rw [List.find?_cons_of_neg _ (by simpa using hx)]
      rw [List.find?_cons_of_neg _ (by simpa using hx)] at hf
      exact ih hf

lemma appendAnswer_answers (st : EngineState) (code requester a : String) :
    answersOf ((appendAnswer st code requester a).2) code = answersOf st code ∨
    (answersOf ((appendAnswer st code requester a).2) code = answersOf st code ++ [a] ∧
      ¬ a ∈ answersOf st code) := by
  unfold appendAnswer
  cases hf : findTopic st code with
  | none => left; rfl
  | some t =>
    dsimp only
    by_cases hed : t.is_editable
    · rw [if_neg (by simp [hed])]
      by_cases hdup : t.answers.contains a
      · left; rw [if_pos hdup]
      · rw [if_neg hdup]
        right
        have hf2 : st.topics.find? (fun x => x.share_code == code) = some t := hf
        have hsc := List.find?_some hf2
        constructor
        · show answersOf { st with topics := setTopic st.topics code _ } code = _
          unfold answersOf findTopic
          rw [find?_setTopic st.topics code t _ hf (by simpa using hsc)]
          dsimp only
          rw [hf2]
        · unfold answersOf
          rw [hf]
          simpa using hdup
    · left; rw [if_pos (by simp [hed])]

lemma runAppends_length (code : String) (ops : List (String × String)) :
    ∀ st : EngineState,
      (answersOf st code).length ≤ (answersOf (runAppends code st ops) code).length := by
  induction ops with
  | nil => intro st; exact le_refl _
  | cons op rest ih =>
    intro st
    have hstep := appendAnswer_answers st code op.1 op.2
    have hrun : runAppends code st (op :: rest) =
        runAppends code ((appendAnswer st code op.1 op.2).2) rest := rfl
    rw [hrun]
    refine le_trans ?_ (ih ((appendAnswer st code op.1 op.2).2))
    rcases hstep with h | ⟨h, _⟩
    · rw [h]
    · rw [h]; simp

lemma runAppends_nodup (code : String) (ops : List (String × String)) :
    ∀ st : EngineState, (answersOf st code).Nodup →
      (answersOf (runAppends code st ops) code).Nodup := by
  induction ops with
  | nil => intro st h; exact h
  | cons op rest ih =>
    intro st h
    have hstep := appendAnswer_answers st code op.1 op.2
    have hrun : runAppends code st (op :: rest) =
        runAppends code ((appendAnswer st code op.1 op.2).2) rest := rfl
    rw [hrun]
    refine ih _ ?_
    rcases hstep with h2 | ⟨h2, hnm⟩
    · rw [h2]; exact h
    · rw [h2]
      rw [← List.concat_eq_append]
      exact List.Nodup.concat hnm h

/-- Claim C7: across any sequence of `AppendAnswer` calls the answer
length of the answer list is monotonically non-decreasing and it never acquires a
duplicate (case-sensitive); calling `AppendAnswer` on a non-editable
topic fails with `Forbidden` and leaves the state unchanged. -/
theorem appendAnswer_invariants (st : EngineState) (code : String) :
    (∀ ops, (answersOf st code).length ≤ (answersOf (runAppends code st ops) code).length) ∧
    ((answersOf st code).Nodup →
      ∀ ops, (answersOf (runAppends code st ops) code).Nodup) ∧
    (∀ t requester newAnswer, findTopic st code = some t → t.is_editable = false →
      (appendAnswer st code requester newAnswer).1 = Except.error Err.forbidden ∧
      (appendAnswer st code requester newAnswer).2 = st) := by
  refine ⟨fun ops => runAppends_length code ops st,
    fun h ops => runAppends_nodup code ops st h, ?_⟩
  intro t requester newAnswer hf hed
  unfold appendAnswer
  rw [hf]
  dsimp only
  rw [if_pos (by simp [hed])]
  exact ⟨rfl, rfl⟩

/-- A concrete editable topic and its engine state. -/
def topicEd : Topic :=
  { share_code := "EDIT0001", title := "Open list", description := none,
    answers := ["A", "B"], is_public := true, is_editable := true,
    allow_multi_select := false, created_by := "alice", tags := [] }

/-- Engine state holding only `topicEd`. -/
def stateEd : EngineState := { topics := [topicEd], grants := [], ballots := [] }

/-- Witness for claim C7: appending "C" to the editable topic keeps the
length monotone and the list duplicate-free, while appending to the
non-editable `topicEx` is `Forbidden`. -/
theorem appendAnswer_invariants_witness :
    2 ≤ (answersOf (runAppends "EDIT0001" stateEd [("bob", "C")]) "EDIT0001").length ∧
    (answersOf (runAppends "EDIT0001" stateEd [("bob", "C")]) "EDIT0001").Nodup ∧
    (appendAnswer stateEx "CODE1AAA" "bob" "C").1 = Except.error Err.forbidden := by
  refine ⟨?_, ?_, ?_⟩
  · exact (appendAnswer_invariants stateEd "EDIT0001").1 [("bob", "C")]
  · exact (appendAnswer_invariants stateEd "EDIT0001").2.1 (by decide) [("bob", "C")]
  · exact ((appendAnswer_invariants stateEx "CODE1AAA").2.2 topicEx "bob" "C"
      (by decide) (by decide)).1

/-- Ballots currently recorded on a topic. -/
def ballotsOn (st : EngineState) (code : String) : List Ballot :=
  st.ballots.filter (fun b => b.topic == code)

/-- Modelled from the spec: `ComputeResults` (section 4.3) is not under
`src/`; per-option count = number of ballots containing the option. -/
def perOptionCount (st : EngineState) (code answer : String) : Nat :=
  (ballotsOn st code).countP (fun b => b.choices.contains answer)

/-- Modelled from the spec: the `vote_breakdown` map of the resolve
payload (section 6), one count per answer option. -/
def voteBreakdown (st : EngineState) (t : Topic) : List (String × Nat) :=
  t.answers.map (fun a => (a, perOptionCount st t.share_code a))

/-- Modelled from the spec: `total_votes` counts distinct voters. -/
def totalVotes (st : EngineState) (code : String) : Nat :=
  ((ballotsOn st code).map (fun b => b.user)).dedup.length

/-- Modelled from the spec: `totalSelections` sums the per-option
counts. -/
def totalSelections (st : EngineState) (t : Topic) : Nat :=
  (t.answers.map (fun a => perOptionCount st t.share_code a)).sum

/-- Sum of the counts of a vote-breakdown list, from
`topics.js:337` (`Object.values(voteCounts).reduce((sum, count) => sum + count, 0)`). -/
def totalSelectionsOf (voteCounts : List (String × Nat)) : Nat :=
  (voteCounts.map (fun kv => kv.2)).sum

/-- Denominator selection for result percentages, from
`topics.js:338` (`isMultiSelect ? totalSelections : totalVotes`); each
percentage of each option at `topics.js:343` divides its count by this
value. -/
def totalForPercentage (isMultiSelect : Bool) (voteCounts : List (String × Nat))
    (total_votes : Nat) : Nat :=
  if isMultiSelect then totalSelectionsOf voteCounts else total_votes

/-- Well-formedness of the ballot ledger on a topic, as enforced by
`SubmitVote` validation: at most one ballot per voter, duplicate-free
choices drawn from the answers of the topic, and singleton choices on a
single-select topic. -/
def LedgerWF (st : EngineState) (t : Topic) : Prop :=
  t.answers.Nodup ∧
  ((ballotsOn st t.share_code).map (fun b => b.user)).Nodup ∧
  ∀ b ∈ ballotsOn st t.share_code,
    b.choices.Nodup ∧ (∀ x ∈ b.choices, x ∈ t.answers) ∧
    (t.allow_multi_select = false → b.choices.length = 1)

lemma sum_map_one (l : List α) : (l.map (fun x => 1)).sum = l.length := by
  induction l with
  | nil => rfl
  | cons x xs ih => simp [ih]; omega

lemma sum_map_add (l : List α) (f g : α → Nat) :
    (l.map (fun a => f a + g a)).sum = (l.map f).sum + (l.map g).sum := by
  induction l with
  | nil => rfl
  | cons x xs ih => simp [ih]; omega

lemma sum_map_ite_eq_countP (l : List α) (p : α → Bool) :
    (l.map (fun a => if p a then 1 else 0)).sum = l.countP p := by
  induction l with
  | nil => rfl
  | cons x xs ih =>
    rw [List.map_cons, List.sum_cons, List.countP_cons, ih]
    omega

lemma sum_exchange (answers : List String) (ballots : List Ballot) :
    (answers.map (fun a => ballots.countP (fun b => b.choices.contains a))).sum =
      (ballots.map (fun b => answers.countP (fun a => b.choices.contains a))).sum := by
  induction ballots with
  | nil => simp
  | cons b rest ih =>
    simp only [List.map_cons, List.sum_cons]
    have hcons : ∀ a : String,
        List.countP (fun x => x.choices.contains a) (b :: rest) =
          List.countP (fun x => x.choices.contains a) rest +
            (if b.choices.contains a then 1 else 0) :=
      fun a => List.countP_cons _ b rest
    calc (answers.map (fun a => List.countP (fun x => x.choices.contains a) (b :: rest))).sum
        = (answers.map (fun a =>
            List.countP (fun x => x.choices.contains a) rest +
              (if b.choices.contains a then 1 else 0))).sum := by
          congr 1
          exact List.map_congr_left (fun a _ => hcons a)
      _ = (answers.map (fun a => List.countP (fun x => x.choices.contains a) rest)).sum +
            (answers.map (fun a => if b.choices.contains a then 1 else 0)).sum :=
          sum_map_add answers _ _
      _ = answers.countP (fun a => b.choices.contains a) +
            (rest.map (fun x => answers.countP (fun a => x.choices.contains a))).sum := by
          rw [ih, sum_map_ite_eq_countP]
          exact Nat.add_comm _ _

lemma countP_contains_eq_length (answers cs : List String) (hna : answers.Nodup)
    (hnc : cs.Nodup) (hsub : ∀ x ∈ cs, x ∈ answers) :
    answers.countP (fun a => cs.contains a) = cs.length := by
  rw [List.countP_eq_length_filter]
  have hnodup : (answers.filter (fun a => cs.contains a)).Nodup :=
    hna.filter _
  have hfin : (answers.filter (fun a => cs.contains a)).toFinset = cs.toFinset := by
    ext x
    simp only [List.mem_toFinset, List.mem_filter]
    constructor
    · intro hx
      exact List.elem_iff.mp hx.2
    · intro hx
      exact ⟨hsub x hx, List.elem_iff.mpr hx⟩
  have h1 := List.toFinset_card_of_nodup hnodup
  have h2 := List.toFinset_card_of_nodup hnc
  rw [← h1, hfin, h2]

/-- Claim C2: the percentage denominator of `renderResults` is the sum
of all per-option counts (`totalSelections`) for a multi-select topic
and `totalVotes` (distinct voters) for a single-select topic, and in
the single-select case the two numbers coincide on a well-formed
ledger. -/
theorem results_percentage_denominator (st : EngineState) (t : Topic)
    (hwf : LedgerWF st t) :
    totalForPercentage true (voteBreakdown st t) (totalVotes st t.share_code) =
      totalSelections st t ∧
    (t.allow_multi_select = false →
      totalForPercentage t.allow_multi_select (voteBreakdown st t)
          (totalVotes st t.share_code) = totalVotes st t.share_code ∧
      totalSelections st t = totalVotes st t.share_code) := by
  obtain ⟨hans, husers, hball⟩ := hwf
  constructor
  · show totalSelectionsOf (voteBreakdown st t) = totalSelections st t
    unfold totalSelectionsOf voteBreakdown totalSelections
    rw [List.map_map]
    rfl
  · intro hms
    constructor
    · simp [totalForPercentage, hms]
    · unfold totalSelections perOptionCount
      rw [sum_exchange]
      have hone : ∀ b ∈ ballotsOn st t.share_code,
          t.answers.countP (fun a => b.choices.contains a) = 1 := by
        intro b hb
        obtain ⟨hnc, hsub, hlen⟩ := hball b hb
        rw [countP_contains_eq_length t.answers b.choices hans hnc hsub]
        exact hlen hms
      have hmap : (ballotsOn st t.share_code).map
          (fun b => t.answers.countP (fun a => b.choices.contains a)) =
          (ballotsOn st t.share_code).map (fun _ => 1) :=
        List.map_congr_left (fun b hb => by rw [hone b hb])
      rw [hmap, sum_map_one]
      rw [totalVotes, List.Nodup.dedup husers, List.length_map]

/-- Engine state with two single-select ballots on `topicEx`. -/
def stateVotes : EngineState :=
  { topics := [topicEx], grants := [],
    ballots := [⟨"bob", "CODE1AAA", ["A"]⟩, ⟨"carol", "CODE1AAA", ["B"]⟩] }

/-- Witness for claim C2: two voters on the single-select `topicEx`
give a multi-select denominator equal to `totalSelections` and equal
single-select `totalSelections` and `totalVotes`. -/
theorem results_percentage_denominator_witness :
    totalForPercentage true (voteBreakdown stateVotes topicEx)
        (totalVotes stateVotes "CODE1AAA") = totalSelections stateVotes topicEx ∧
    totalSelections stateVotes topicEx = totalVotes stateVotes "CODE1AAA" := by
  have h := results_percentage_denominator stateVotes topicEx
    (by refine ⟨by decide, by decide, ?_⟩; decide)
  exact ⟨h.1, (h.2 rfl).2⟩

/-- Whitespace recognised by the JavaScript `String.prototype.trim`
used at `topics.js:978`: the ECMAScript WhiteSpace production (TAB, VT,
FF, SP, NBSP, ZWNBSP and every Space_Separator code point) together
with the LineTerminator production (LF, CR, LS, PS). -/
def jsWhitespace (ch : Char) : Bool :=
  ['\t', '\n', '\x0b', '\x0c', '\r', ' ', '\u00A0', '\u1680',
    '\u2000', '\u2001', '\u2002', '\u2003', '\u2004', '\u2005',
    '\u2006', '\u2007', '\u2008', '\u2009', '\u200A', '\u2028',
    '\u2029', '\u202F', '\u205F', '\u3000', '\uFEFF'].contains ch

/-- Shallow embedding of JavaScript `trim`: drop whitespace from both
ends of the character sequence. -/
def jsTrim (s : String) : String :=
  ⟨((s.data.dropWhile jsWhitespace).reverse.dropWhile jsWhitespace).reverse⟩

/-- Answer collection of the create-topic submit handler,
`topics.js:977-979`: trim every option input and discard the empty
ones. -/
def collectAnswers (inputs : List String) : List String :=
  (inputs.map jsTrim).filter (fun v => v.length > 0)

/-- Modelled from the spec: the Topic Store validation in `CreateTopic`
(section 4.1) is not under `src/`; it rejects the request when any
answer is empty or whitespace-only after trimming or when fewer than 2
distinct answers are supplied. -/
def createTopicValidate (answers : List String) : Except Err Unit :=
  if answers.any (fun a => (jsTrim a).length = 0) then .error .validationError
  else if answers.dedup.length < 2 then .error .validationError
  else .ok ()

/-- The create-topic pipeline: the local check of the submit handler
(`topics.js:981-984`, at least 2 non-empty options) followed by the
modelled store validation. -/
def createTopicSubmit (inputs : List String) (is_editable : Bool) : Except Err Unit :=
  let answers := collectAnswers inputs
  if answers.length < 2 then .error .validationError
  else createTopicValidate answers

/-- Claim C4: `CreateTopic` fails with `ValidationError` whenever fewer
than 2 distinct answers remain after trimming and discarding
empty/whitespace-only entries, and succeeds when exactly 2 valid
distinct answers are supplied (in particular with
`is_editable == false`). -/
theorem createTopic_validation (inputs : List String) (is_editable : Bool) :
    ((collectAnswers inputs).dedup.length < 2 →
      createTopicSubmit inputs is_editable = Except.error Err.validationError) ∧
    (∀ a b, collectAnswers inputs = [a, b] → a ≠ b → jsTrim a = a → jsTrim b = b →
      createTopicSubmit inputs false = Except.ok ()) := by
  constructor
  · intro hlt
    unfold createTopicSubmit
    by_cases hlen : (collectAnswers inputs).length < 2
    · rw [if_pos (by simpa using hlen)]
    · rw [if_neg (by simpa using hlen)]
      unfold createTopicValidate
      by_cases hany : (collectAnswers inputs).any (fun a => (jsTrim a).length = 0)
      · rw [if_pos hany]
      · rw [if_neg hany, if_pos (by simpa using hlt)]
  · intro a b hcol hne ha hb
    have hpos : ∀ x ∈ collectAnswers inputs, x.length > 0 := by
      intro x hx
      have := List.of_mem_filter hx
      simpa using this
    unfold createTopicSubmit
    rw [hcol]
    rw [if_neg (by simp)]
    unfold createTopicValidate
    have hanyf : ([a, b].any (fun x => (jsTrim x).length = 0)) = false := by
      have hap : a.length > 0 := hpos a (by rw [hcol]; simp)
      have hbp : b.length > 0 := hpos b (by rw [hcol]; simp)
      simp [ha, hb]
      omega
    rw [if_neg (by simp [hanyf])]
    have hdedup : ([a, b].dedup) = [a, b] :=
      List.Nodup.dedup (by simp [hne])
    rw [if_neg (by rw [hdedup]; simp)]

/-- Witness for claim C4: a duplicate pair fails, a distinct pair
succeeds. -/
theorem createTopic_validation_witness :
    createTopicSubmit ["  yes ", "yes"] false = Except.error Err.validationError ∧
    createTopicSubmit ["yes", "no"] false = Except.ok () := by
  constructor
  · exact (createTopic_validation ["  yes ", "yes"] false).1 (by decide)
  · exact (createTopic_validation ["yes", "no"] false).2 "yes" "no" (by decide)
      (by decide) (by decide) (by decide)

/-- Minimal JSON value model for the request bodies built by
`api.js`. -/
inductive Json where
  | null
  | bool (b : Bool)
  | num (n : Int)
  | str (s : String)
  | arr (elems : List Json)
  | obj (fields : List (String × Json))

/-- The `choices` argument accepted by `API.vote`: a bare string or an
array of strings. -/
inductive VoteChoices where
  | single (choice : String)
  | multiple (choices : List String)

/-- Normalisation in `API.vote` (`api.js:175-179`):
`Array.isArray(choices) ? choices : [choices]`. -/
def choicesArray : VoteChoices → List String
  | .multiple cs => cs
  | .single ch => [ch]

/-- The JSON body posted by `API.vote`:
`{ choices: choicesArray }` (`api.js:178`). -/
def voteRequestBody (choices : VoteChoices) : Json :=
  .obj [("choices", .arr ((choicesArray choices).map Json.str))]

/-- Field lookup on a JSON object. -/
def jsonField : Json → String → Option Json
  | .obj fields, key => fields.lookup key
  | _, _ => none

/-- Claim C8: the submit-vote request body always carries `choices` as
a JSON array — a one-element array for a bare single choice — and
never as a bare JSON string. -/
theorem vote_body_choices_array :
    (∀ cs : VoteChoices,
      jsonField (voteRequestBody cs) "choices" =
        some (Json.arr ((choicesArray cs).map Json.str))) ∧
    (∀ s : String,
      jsonField (voteRequestBody (VoteChoices.single s)) "choices" =
        some (Json.arr [Json.str s])) ∧
    (∀ cs : VoteChoices, ∀ s : String,
      jsonField (voteRequestBody cs) "choices" ≠ some (Json.str s)) := by
  refine ⟨fun cs => rfl, fun s => rfl, fun cs s h => ?_⟩
  have : some (Json.arr ((choicesArray cs).map Json.str)) = some (Json.str s) := h
  simp at this

/-- Witness for claim C8: a bare single choice "A" is wrapped into a
one-element JSON array. -/
theorem vote_body_choices_array_witness :
    jsonField (voteRequestBody (VoteChoices.single "A")) "choices" =
      some (Json.arr [Json.str "A"]) :=
  vote_body_choices_array.2.1 "A"

/-- Entity encoding of one character in the HTML serialization of a
text node. -/
def encodeHtmlChar (ch : Char) : List Char :=
  if ch = '&' then ['&', 'a', 'm', 'p', ';']
  else if ch = '<' then ['&', 'l', 't', ';']
  else if ch = '>' then ['&', 'g', 't', ';']
  else [ch]

/-- escapeHtml from `topics.js:873-877`: the browser stores the text in
a text node (`div.textContent = text`) and reads back its HTML
serialization (`div.innerHTML`), which replaces each of the three
HTML-significant characters by its entity. -/
def escapeHtml (text : String) : String :=
  ⟨(text.data.map encodeHtmlChar).flatten⟩

/-- Inverse entity decoding, used to state that `escapeHtml` is a
faithful (lossless) encoding. -/
def unescapeChars : List Char → List Char
  | [] => []
  | '&' :: 'a' :: 'm' :: 'p' :: ';' :: rest => '&' :: unescapeChars rest
  | '&' :: 'l' :: 't' :: ';' :: rest => '<' :: unescapeChars rest
  | '&' :: 'g' :: 't' :: ';' :: rest => '>' :: unescapeChars rest
  | ch :: rest => ch :: unescapeChars rest

/-- String-level entity decoding. -/
def unescapeHtml (s : String) : String :=
  ⟨unescapeChars s.data⟩

/-- Occurrences of a raw markup-opening character in a string. -/
def countLt (s : String) : Nat :=
  s.data.count '<'

/-- JavaScript `x || fallback` on an optional string (empty string is
falsy). -/
def jsOrString (value : Option String) (fallback : String) : String :=
  match value with
  | none => fallback
  | some s => if s.isEmpty then fallback else s

/-- Voting option template of `renderVotingSection`
(`topics.js:269-275`), insignificant inter-tag whitespace dropped. -/
def votingOptionHtml (isMultiSelect : Bool) (answer : String) : String :=
  "<div class=\"voting-option\" data-answer=\"" ++ escapeHtml answer ++
    "\" onclick=\"selectAnswer(\x27" ++ escapeHtml answer ++ "\x27, " ++
    (if isMultiSelect then "true" else "false") ++ ")\">" ++
    "<div class=\"" ++ (if isMultiSelect then "option-checkbox" else "option-radio") ++
    "\"></div><span class=\"option-text\">" ++ escapeHtml answer ++
    "</span><div class=\"option-glow\"></div></div>"

/-- Title cell of the topic card (`topics.js:134`). -/
def topicTitleHtml (title : String) : String :=
  "<h3 class=\"topic-title\">" ++ escapeHtml title ++ "</h3>"

/-- Description cell of the topic card (`topics.js:135`). -/
def topicDescriptionHtml (description : Option String) : String :=
  "<p class=\"topic-description\">" ++
    escapeHtml (jsOrString description "No description provided") ++ "</p>"

/-- Tag chip of the topic card (`topics.js:127`). -/
def topicTagHtml (tag : String) : String :=
  "<span class=\"topic-tag\">" ++ escapeHtml tag ++ "</span>"

lemma unescape_encode (ch : Char) (l : List Char) :
    unescapeChars (encodeHtmlChar ch ++ l) = ch :: unescapeChars l := by
  by_cases h1 : ch = '&'
  · subst h1; simp [encodeHtmlChar, unescapeChars]
  · by_cases h2 : ch = '<'
    · subst h2; simp [encodeHtmlChar, unescapeChars]
    · by_cases h3 : ch = '>'
      · subst h3; simp [encodeHtmlChar, unescapeChars]
      · simp only [encodeHtmlChar, if_neg h1, if_neg h2, if_neg h3]
        rw [List.cons_append, List.nil_append]
        rw [unescapeChars] <;> try (intro _ h _; exact h1 h)

lemma unescape_escape_chars (l : List Char) :
    unescapeChars ((l.map encodeHtmlChar).flatten) = l := by
  induction l with
  | nil => rfl
  | cons ch rest ih =>
    rw [List.map_cons, List.flatten_cons, unescape_encode, ih]

lemma escapeHtml_no_lt (s : String) : countLt (escapeHtml s) = 0 := by
  unfold countLt escapeHtml
  rw [List.count_eq_zero]
  intro hmem
  obtain ⟨chunk, hchunk, hlt⟩ := List.mem_flatten.mp hmem
  obtain ⟨ch, hch, rfl⟩ := List.mem_map.mp hchunk
  unfold encodeHtmlChar at hlt
  split at hlt
  · simp at hlt
  · split at hlt
    · simp at hlt
    · split at hlt
      · simp at hlt
      · next h1 h2 h3 =>
        simp only [List.mem_singleton] at hlt
        exact h2 hlt.symm

lemma countLt_append (s t : String) : countLt (s ++ t) = countLt s + countLt t := by
  unfold countLt
  rw [String.data_append, List.count_append]

/-- Claim C9: `escapeHtml` is the lossless HTML-entity encoding of its
input (decoding recovers the input exactly), its output never contains
a raw markup-opening character, and the user-supplied title,
description, tag and answer values reach the card and voting templates
only through `escapeHtml`, so they can never add markup to the
rendered HTML. -/
theorem escapeHtml_spec :
    (∀ s, unescapeHtml (escapeHtml s) = s) ∧
    (∀ s, countLt (escapeHtml s) = 0) ∧
    (∀ b answer, countLt (votingOptionHtml b answer) = countLt (votingOptionHtml b "")) ∧
    (∀ title, countLt (topicTitleHtml title) = countLt (topicTitleHtml "")) ∧
    (∀ d, countLt (topicDescriptionHtml d) = countLt (topicDescriptionHtml none)) ∧
    (∀ tag, countLt (topicTagHtml tag) = countLt (topicTagHtml "")) := by
  refine ⟨?_, escapeHtml_no_lt, ?_, ?_, ?_, ?_⟩
  · intro s
    cases s with
    | mk l =>
      show String.mk (unescapeChars ((l.map encodeHtmlChar).flatten)) = String.mk l
      rw [unescape_escape_chars]
  · intro b answer
    simp [votingOptionHtml, countLt_append, escapeHtml_no_lt]
  · intro title
    simp [topicTitleHtml, countLt_append, escapeHtml_no_lt]
  · intro d
    simp [topicDescriptionHtml, countLt_append, escapeHtml_no_lt]
  · intro tag
    simp [topicTagHtml, countLt_append, escapeHtml_no_lt]

/-- Witness for claim C9: the encoding round-trips and suppresses the
markup-opening character on a concrete string. -/
theorem escapeHtml_spec_witness :
    unescapeHtml (escapeHtml "a<b&c>d") = "a<b&c>d" ∧
    countLt (escapeHtml "a<b&c>d") = 0 :=
  ⟨escapeHtml_spec.1 "a<b&c>d", escapeHtml_spec.2.1 "a<b&c>d"⟩

/-- Client-side state relevant to one topic card: whether the current
user has favorited it and the favorite counter of the card
(`none` models a missing `favorite_count` field). -/
structure CardState where
  favorited : Bool
  favorite_count : Option Int

/-- Numeric value of the counter as JavaScript reads it
(`topic.favorite_count || 0`). -/
def cardCount (s : CardState) : Int :=
  match s.favorite_count with
  | some v => v
  | none => 0

/-- Success path of `toggleFavoriteFromCard` (`topics.js:638-679`):
unfavoriting decrements the counter only when it is positive
(`if (topic && topic.favorite_count > 0)`), favoriting increments it
unconditionally (`(topic.favorite_count || 0) + 1`). -/
def toggleFavoriteFromCard (s : CardState) : CardState :=
  if s.favorited then
    { favorited := false
      favorite_count :=
        match s.favorite_count with
        | some v => if v > 0 then some (v - 1) else some v
        | none => none }
  else
    { favorited := true
      favorite_count := some (cardCount s + 1) }

lemma toggle_step_nonneg (s : CardState) (h : 0 ≤ cardCount s) :
    0 ≤ cardCount (toggleFavoriteFromCard s) := by
  unfold toggleFavoriteFromCard
  by_cases hf : s.favorited
  · rw [if_pos hf]
    cases hv : s.favorite_count with
    | none => simp [cardCount]
    | some v =>
      dsimp only [cardCount]
      by_cases hp : v > 0
      · rw [if_pos hp]
        dsimp only
        omega
      · rw [if_neg hp]
        dsimp only
        rw [cardCount, hv] at h
        exact h
  · rw [if_neg hf]
    show 0 ≤ cardCount s + 1
    omega

/-- Claim C10: the optimistic favorite-counter update never drives the
stored count below zero, over any number of toggles from a topic
card. -/
theorem favoriteCount_nonneg (s : CardState) (n : Nat) (h : 0 ≤ cardCount s) :
    0 ≤ cardCount (toggleFavoriteFromCard^[n] s) := by
  induction n generalizing s with
  | zero => exact h
  | succ k ih =>
    rw [Function.iterate_succ_apply]
    exact ih (toggleFavoriteFromCard s) (toggle_step_nonneg s h)

/-- Witness for claim C10: three toggles from a zero-count,
not-favorited card keep the count non-negative. -/
theorem favoriteCount_nonneg_witness :
    0 ≤ cardCount (toggleFavoriteFromCard^[3] ⟨false, some 0⟩) :=
  favoriteCount_nonneg ⟨false, some 0⟩ 3 (by decide)

end Democrasite
